import Mathlib

/-!
Verification development for the execution-rules dispatch and scheduling core
of this repository. The definitions below are a shallow embedding of the
PostgreSQL storage layers for execution rules and execution logs, and of the
manual-invocation HTTP route. Timestamps are modelled as natural numbers
(milliseconds since the Unix epoch); SQL tables are modelled as Lean lists of
typed rows; JavaScript Date arithmetic is modelled on a DST-free (UTC) clock,
where adding one day, hour, week or 15 minutes adds the corresponding fixed
number of milliseconds.
-/

namespace Haist

/-- Schedule interval enum: the source strings are "15min", "hourly", "daily",
"weekly". -/
inductive ScheduleInterval where
  | min15
  | hourly
  | daily
  | weekly
deriving DecidableEq, Repr

/-- Activation mode enum: which dispatch paths may select a rule. -/
inductive ActivationMode where
  | trigger
  | scheduled
  | manual
  | all
deriving DecidableEq, Repr

/-- Output configuration; opaque to the storage core and passed through.
The source default is the object with platform "none" and format "summary". -/
structure OutputConfig where
  platform : String
  format : String
deriving DecidableEq, Repr

/-- One execution step. Its payload is opaque to the storage layer (it is
JSON-serialized verbatim); we keep the kind tag and content from the data
model. -/
structure ExecutionStep where
  kind : String
  content : String
deriving DecidableEq, Repr

/-- Embeds calculateNextRunTime from the rules storage module: a switch on the
interval that advances a JavaScript Date by 15 minutes, 1 hour, 1 day or
7 days. On an epoch-milliseconds clock without DST (a UTC server) each branch
adds the fixed length of the interval. -/
def calculateNextRunTime (interval : ScheduleInterval) (fromDate : Nat) : Nat :=
  match interval with
  | .min15 => fromDate + 15 * 60 * 1000
  | .hourly => fromDate + 60 * 60 * 1000
  | .daily => fromDate + 24 * 60 * 60 * 1000
  | .weekly => fromDate + 7 * 24 * 60 * 60 * 1000

/-- The ExecutionRule record as stored in the rules table and returned by the
storage layer. Nullable columns are Option-typed. -/
structure ExecutionRule where
  id : String
  userId : String
  name : String
  description : Option String
  isActive : Bool
  priority : Int
  acceptedTriggers : List String
  topicCondition : String
  executionSteps : List ExecutionStep
  outputConfig : OutputConfig
  executionCount : Int
  lastExecutedAt : Option Nat
  createdAt : Nat
  updatedAt : Nat
  activationMode : ActivationMode
  scheduleEnabled : Bool
  scheduleInterval : Option ScheduleInterval
  scheduleLastRun : Option Nat
  scheduleNextRun : Option Nat
deriving DecidableEq, Repr

/-- ExecutionRuleInput: the creation payload. Fields that the create code
reads with a JS default (?? or ||) are Option-typed; name, topicCondition,
executionSteps and outputConfig are required by the insert. -/
structure ExecutionRuleInput where
  name : String
  description : Option String := none
  isActive : Option Bool := none
  priority : Option Int := none
  acceptedTriggers : Option (List String) := none
  topicCondition : String
  executionSteps : List ExecutionStep
  outputConfig : OutputConfig
  activationMode : Option ActivationMode := none
  scheduleEnabled : Option Bool := none
  scheduleInterval : Option ScheduleInterval := none
deriving DecidableEq, Repr

/-- The update payload of executionRulesStorage.update (a TypeScript
Partial of ExecutionRuleInput): every field optional, none meaning the key
was absent (undefined) so no SET clause is emitted for it. -/
structure RulePatch where
  name : Option String := none
  description : Option String := none
  isActive : Option Bool := none
  priority : Option Int := none
  acceptedTriggers : Option (List String) := none
  topicCondition : Option String := none
  executionSteps : Option (List ExecutionStep) := none
  outputConfig : Option OutputConfig := none
  activationMode : Option ActivationMode := none
  scheduleEnabled : Option Bool := none
  scheduleInterval : Option ScheduleInterval := none
deriving DecidableEq, Repr

/-- Embeds executionRulesStorage.create: builds the row inserted for a new
rule. The generated id and the current time are taken as parameters. JS
defaults follow the source: isActive defaults to true (??), priority to 0
(??), acceptedTriggers to [] (||), activationMode to trigger (??),
scheduleEnabled to false (??); the empty string is falsy so a blank
description is stored as NULL; scheduleNextRun is computed only when the
input has scheduleEnabled truthy AND a scheduleInterval, else NULL. -/
def createRule (id : String) (now : Nat) (userId : String)
    (input : ExecutionRuleInput) : ExecutionRule :=
  { id := id
    userId := userId
    name := input.name
    description :=
      match input.description with
      | some d => if d = "" then none else some d
      | none => none
    isActive := input.isActive.getD true
    priority := input.priority.getD 0
    acceptedTriggers := input.acceptedTriggers.getD []
    topicCondition := input.topicCondition
    executionSteps := input.executionSteps
    outputConfig := input.outputConfig
    executionCount := 0
    lastExecutedAt := none
    createdAt := now
    updatedAt := now
    activationMode := input.activationMode.getD .trigger
    scheduleEnabled := input.scheduleEnabled.getD false
    scheduleInterval := input.scheduleInterval
    scheduleNextRun :=
      match input.scheduleEnabled, input.scheduleInterval with
      | some true, some iv => some (calculateNextRunTime iv now)
      | _, _ => none
    scheduleLastRun := none }

/-- Embeds executionRulesStorage.update applied to one rule row: each field
present in the patch yields a SET clause; scheduleNextRun is recalculated from
the current time exactly when the patch supplies a scheduleInterval and does
not simultaneously set scheduleEnabled to false. The source emits no SET
clause for updatedAt, executionCount, lastExecutedAt or scheduleLastRun. -/
def updateRule (rule : ExecutionRule) (patch : RulePatch) (now : Nat) :
    ExecutionRule :=
  { rule with
    name := patch.name.getD rule.name
    description :=
      match patch.description with
      | some d => some d
      | none => rule.description
    isActive := patch.isActive.getD rule.isActive
    priority := patch.priority.getD rule.priority
    acceptedTriggers := patch.acceptedTriggers.getD rule.acceptedTriggers
    topicCondition := patch.topicCondition.getD rule.topicCondition
    executionSteps := patch.executionSteps.getD rule.executionSteps
    outputConfig := patch.outputConfig.getD rule.outputConfig
    activationMode := patch.activationMode.getD rule.activationMode
    scheduleEnabled := patch.scheduleEnabled.getD rule.scheduleEnabled
    scheduleInterval :=
      match patch.scheduleInterval with
      | some iv => some iv
      | none => rule.scheduleInterval
    scheduleNextRun :=
      match patch.scheduleInterval with
      | some iv =>
        if patch.scheduleEnabled = some false then rule.scheduleNextRun
        else some (calculateNextRunTime iv now)
      | none => rule.scheduleNextRun }

/-- The empty patch: an update body with no recognized fields, for which the
source issues no UPDATE statement at all and just re-reads the rule. -/
def emptyPatch : RulePatch := {}

/-- The ordering of getByUserId: ORDER BY priority DESC, updatedAt DESC
(lexicographic: strictly higher priority first, equal priorities broken by
later updatedAt first). -/
def prioUpdatedDesc (a b : ExecutionRule) : Prop :=
  b.priority < a.priority ∨ (b.priority = a.priority ∧ b.updatedAt ≤ a.updatedAt)

instance : DecidableRel prioUpdatedDesc := fun a b => by
  unfold prioUpdatedDesc; infer_instance

instance : IsTotal ExecutionRule prioUpdatedDesc :=
  ⟨fun a b => by unfold prioUpdatedDesc; omega⟩

instance : IsTrans ExecutionRule prioUpdatedDesc :=
  ⟨fun a b c hab hbc => by
    unfold prioUpdatedDesc at hab hbc ⊢; omega⟩

/-- The ordering of getActiveByUserId: ORDER BY priority DESC and nothing
else; rows with equal priority keep the order the database returns them in
(modelled by a stable sort over the table order). -/
def prioDesc (a b : ExecutionRule) : Prop := b.priority ≤ a.priority

instance : DecidableRel prioDesc := fun a b => by
  unfold prioDesc; infer_instance

instance : IsTotal ExecutionRule prioDesc :=
  ⟨fun a b => le_total b.priority a.priority⟩

instance : IsTrans ExecutionRule prioDesc :=
  ⟨fun _ _ _ hab hbc => le_trans hbc hab⟩

/-- The ordering of getScheduledRulesDue: ORDER BY schedule_next_run ASC. -/
def dueAsc (a b : ExecutionRule) : Prop :=
  a.scheduleNextRun.getD 0 ≤ b.scheduleNextRun.getD 0

instance : DecidableRel dueAsc := fun a b => by
  unfold dueAsc; infer_instance

instance : IsTotal ExecutionRule dueAsc :=
  ⟨fun a b => le_total (a.scheduleNextRun.getD 0) (b.scheduleNextRun.getD 0)⟩

instance : IsTrans ExecutionRule dueAsc :=
  ⟨fun _ _ _ hab hbc => le_trans hab hbc⟩

/-- Embeds executionRulesStorage.getByUserId: all rules of the user, ORDER BY
priority DESC, updatedAt DESC. -/
def getByUserId (table : List ExecutionRule) (userId : String) :
    List ExecutionRule :=
  List.insertionSort prioUpdatedDesc
    (table.filter (fun r => decide (r.userId = userId)))

/-- Embeds executionRulesStorage.getActiveByUserId: the active rules of the
user, ORDER BY priority DESC (no further tie-break column in the SQL). -/
def getActiveByUserId (table : List ExecutionRule) (userId : String) :
    List ExecutionRule :=
  List.insertionSort prioDesc
    (table.filter (fun r => decide (r.userId = userId ∧ r.isActive = true)))

/-- The WHERE clause of getScheduledRulesDue: schedule_enabled AND
schedule_next_run <= NOW() (false when the column is NULL, as in SQL) AND
is_active AND activation_mode IN (scheduled, all). -/
def isDue (now : Nat) (r : ExecutionRule) : Bool :=
  r.scheduleEnabled &&
  (match r.scheduleNextRun with
   | some t => decide (t ≤ now)
   | none => false) &&
  r.isActive &&
  (decide (r.activationMode = ActivationMode.scheduled) ||
   decide (r.activationMode = ActivationMode.all))

/-- Embeds executionRulesStorage.getScheduledRulesDue: due scheduled rules,
ORDER BY schedule_next_run ASC. -/
def getScheduledRulesDue (table : List ExecutionRule) (now : Nat) :
    List ExecutionRule :=
  List.insertionSort dueAsc (table.filter (isDue now))

/-- The row mutation performed by executionRulesStorage.updateScheduleRun for
the matching rule: schedule_last_run = NOW(), schedule_next_run = the next run
computed from NOW(), execution_count incremented, last_executed_at = NOW(). -/
def advanceScheduleRun (r : ExecutionRule) (interval : ScheduleInterval)
    (now : Nat) : ExecutionRule :=
  { r with
    scheduleLastRun := some now
    scheduleNextRun := some (calculateNextRunTime interval now)
    executionCount := r.executionCount + 1
    lastExecutedAt := some now }

/-- Embeds executionRulesStorage.updateScheduleRun: a single UPDATE whose only
filter is WHERE id = the given id; every row with that id is advanced,
whatever its current scheduleNextRun is. -/
def updateScheduleRun (table : List ExecutionRule) (id : String)
    (interval : ScheduleInterval) (now : Nat) : List ExecutionRule :=
  table.map (fun r => if r.id = id then advanceScheduleRun r interval now else r)

/-- Embeds executionRulesStorage.delete: DELETE FROM the rules table WHERE
id = the given id (the route also reports whether a row was removed; only the
resulting table matters here). -/
def deleteRule (table : List ExecutionRule) (id : String) :
    List ExecutionRule :=
  table.filter (fun r => decide (r.id ≠ id))

/-- Embeds executionRulesStorage.getByIdAndUser: SELECT WHERE id = $1 AND
user_id = $2, returning the first row when one exists. -/
def getByIdAndUser (table : List ExecutionRule) (id userId : String) :
    Option ExecutionRule :=
  table.find? (fun r => decide (r.id = id ∧ r.userId = userId))

/-- Run status of an execution log entry. The source strings are "success",
"failure" and "partial"; the constructor partOk stands for the last. -/
inductive RunStatus where
  | success
  | failure
  | partOk
deriving DecidableEq, Repr

/-- One element of a log entry's stepsJson array: an ordered record
of the shape stepIndex / type / success / result-or-error. -/
structure StepRecord where
  stepIndex : Nat
  kind : String
  success : Bool
  result : Option String
  error : Option String
deriving DecidableEq, Repr

/-- The durable ExecutionLogEntry as stored in the execution log table. -/
structure ExecutionLogEntry where
  id : String
  ruleId : String
  ruleName : String
  userId : String
  triggerSlug : String
  status : RunStatus
  stepsJson : List StepRecord
  outputText : Option String
  errorText : Option String
  durationMs : Option Nat
  createdAt : Nat
deriving DecidableEq, Repr

/-- The creation payload of executionLogStorage.create (the entry without its
id and createdAt, which the storage generates). -/
structure LogInput where
  ruleId : String
  ruleName : String
  userId : String
  triggerSlug : String
  status : RunStatus
  stepsJson : Option (List StepRecord) := none
  outputText : Option String := none
  errorText : Option String := none
  durationMs : Option Nat := none
deriving DecidableEq, Repr

/-- Embeds executionLogStorage.create: one INSERT appending a row. JS
falsiness in the source maps a missing stepsJson to [], a missing or empty
outputText or errorText to NULL, and a missing or zero durationMs to NULL. -/
def createLog (logs : List ExecutionLogEntry) (id : String) (now : Nat)
    (input : LogInput) : List ExecutionLogEntry :=
  logs ++
    [{ id := id
       ruleId := input.ruleId
       ruleName := input.ruleName
       userId := input.userId
       triggerSlug := input.triggerSlug
       status := input.status
       stepsJson := input.stepsJson.getD []
       outputText :=
         match input.outputText with
         | some s => if s = "" then none else some s
         | none => none
       errorText :=
         match input.errorText with
         | some s => if s = "" then none else some s
         | none => none
       durationMs :=
         match input.durationMs with
         | some d => if d = 0 then none else some d
         | none => none
       createdAt := now }]

/-- The per-scope statistics record returned by getStats and
getStatsByRuleId. -/
structure ExecutionLogStats where
  totalRuns : Nat
  successRate : ℚ
  avgDurationMs : ℤ
deriving DecidableEq, Repr

/-- The shared aggregation of getStats and getStatsByRuleId (their SQL bodies
are identical apart from the WHERE column): COUNT(*) rows in scope, COUNT
FILTER status = success, AVG(duration_ms) over the non-NULL durations.
successRate is successCount / totalRuns * 100 when totalRuns > 0, else 0;
avgDurationMs is Math.round of the SQL average (NULL when no row has a
duration, which the source maps to 0 via its falsiness check - a zero average
also maps to 0, the same value Math.round would give). -/
def statsOf (scope : List ExecutionLogEntry) : ExecutionLogStats :=
  { totalRuns := scope.length
    successRate :=
      if 0 < scope.length then
        ((scope.filter (fun e => decide (e.status = RunStatus.success))).length : ℚ)
          / (scope.length : ℚ) * 100
      else 0
    avgDurationMs :=
      if 0 < (scope.filterMap (fun e => e.durationMs)).length then
        round ((((scope.filterMap (fun e => e.durationMs)).sum : ℕ) : ℚ)
          / ((scope.filterMap (fun e => e.durationMs)).length : ℚ))
      else 0 }

/-- Embeds executionLogStorage.getStats: aggregates over the rows WHERE
user_id = the given user. -/
def getStats (logs : List ExecutionLogEntry) (userId : String) :
    ExecutionLogStats :=
  statsOf (logs.filter (fun e => decide (e.userId = userId)))

/-- Embeds executionLogStorage.getStatsByRuleId: aggregates over the rows
WHERE rule_id = the given rule. -/
def getStatsByRuleId (logs : List ExecutionLogEntry) (ruleId : String) :
    ExecutionLogStats :=
  statsOf (logs.filter (fun e => decide (e.ruleId = ruleId)))

/-- The database state relevant to rule deletion: the rules table and the
execution log table. executionRulesStorage.delete issues a single DELETE on
the rules table and never touches the log table. -/
structure Store where
  rules : List ExecutionRule
  logs : List ExecutionLogEntry
deriving DecidableEq, Repr

/-- Rule deletion at the store level: only the rules table changes. -/
def deleteRuleFromStore (s : Store) (id : String) : Store :=
  { s with rules := deleteRule s.rules id }

/-- One message of a manual invocation's conversation history. -/
structure ChatMessage where
  role : String
  content : String
deriving DecidableEq, Repr

/-- The JSON body of POST /api/automations/invoke. ruleId is Option-typed
because the handler validates its presence itself. -/
structure InvokeRequest where
  ruleId : Option String
  context : Option String := none
  conversationHistory : Option (List ChatMessage) := none
deriving DecidableEq, Repr

/-- The HTTP response of the invoke handler, by constructor:
unauthorized is the 401 branch, badRequest a 400 with its error string,
notFound the 404 branch, ok the 200 manual-invocation result carrying the
denormalized rule id and name. -/
inductive InvokeResponse where
  | unauthorized
  | badRequest (error : String)
  | notFound (error : String)
  | ok (ruleId ruleName : String)
deriving DecidableEq, Repr

/-- The HTTP status code of each invoke response branch in the source. -/
def statusCode : InvokeResponse → Nat
  | .unauthorized => 401
  | .badRequest _ => 400
  | .notFound _ => 404
  | .ok _ _ => 200

/-- One call the handler makes to triggerProcessingService.processManual:
step execution and execution-log writing happen only inside this external
collaborator, so a handler run with no such call executes no steps and writes
no log entry. -/
structure ManualCall where
  userId : String
  rule : ExecutionRule
  context : String
  conversationHistory : Option (List ChatMessage)
deriving DecidableEq, Repr

/-- The observable outcome of one invoke-handler run: the HTTP response and
the list of processManual calls it made. -/
structure InvokeOutcome where
  response : InvokeResponse
  processManualCalls : List ManualCall
deriving DecidableEq, Repr

/-- Embeds the POST handler of the manual-invocation route: reject when there
is no session; reject a missing or empty ruleId (JS falsiness) with 400; look
the rule up scoped to the authenticated user and answer 404 when that lookup
misses; answer 400 when the rule is inactive; answer 400 when its
activationMode is neither manual nor all; otherwise hand the rule to
processManual with the context defaulted to the empty string. -/
def invokePost (table : List ExecutionRule) (session : Option String)
    (body : InvokeRequest) : InvokeOutcome :=
  match session with
  | none => { response := .unauthorized, processManualCalls := [] }
  | some uid =>
    match body.ruleId with
    | none =>
      { response := .badRequest "Rule ID is required", processManualCalls := [] }
    | some rid =>
      if rid = "" then
        { response := .badRequest "Rule ID is required", processManualCalls := [] }
      else
        match getByIdAndUser table rid uid with
        | none =>
          { response := .notFound "Rule not found", processManualCalls := [] }
        | some rule =>
          if rule.isActive = false then
            { response := .badRequest "Rule is not active"
              processManualCalls := [] }
          else if rule.activationMode ≠ ActivationMode.manual ∧
              rule.activationMode ≠ ActivationMode.all then
            { response := .badRequest "Rule does not support manual invocation"
              processManualCalls := [] }
          else
            { response := .ok rule.id rule.name
              processManualCalls :=
                [{ userId := uid
                   rule := rule
                   context := body.context.getD ""
                   conversationHistory := body.conversationHistory }] }

/-- A raw database row of the rules table as seen by mapRuleRow, with every
nullable column Option-typed. The source coalesces a camelCase and a
snake_case variant of each column (one naming convention per deployment);
that pair is collapsed into a single optional column here. Columns the
schema and the insert always populate (id, user_id, name, topic_condition,
created_at, updated_at) are non-optional. -/
structure RuleRow where
  id : String
  userId : String
  name : String
  description : Option String
  isActive : Option Bool
  priority : Option Int
  acceptedTriggers : Option (List String)
  topicCondition : String
  executionSteps : Option (List ExecutionStep)
  outputConfig : Option OutputConfig
  executionCount : Option Int
  lastExecutedAt : Option Nat
  createdAt : Nat
  updatedAt : Nat
  activationMode : Option ActivationMode
  scheduleEnabled : Option Bool
  scheduleInterval : Option ScheduleInterval
  scheduleLastRun : Option Nat
  scheduleNextRun : Option Nat
deriving DecidableEq, Repr

/-- Embeds mapRuleRow, the decoder every storage read maps its rows through:
Boolean(x) coerces a NULL isActive or scheduleEnabled to false; priority and
executionCount use the JS fallback x-or-0, which on integers coincides with
defaulting NULL to 0 (a stored 0 stays 0); acceptedTriggers and
executionSteps default a NULL to the empty list (an empty stored list is
truthy and kept); outputConfig defaults a NULL to platform none, format
summary; activationMode defaults a NULL to trigger (the stored enum literals
are non-empty strings, so NULL is the only falsy case); the remaining
nullable columns pass through. -/
def mapRuleRow (row : RuleRow) : ExecutionRule :=
  { id := row.id
    userId := row.userId
    name := row.name
    description := row.description
    isActive := row.isActive.getD false
    priority := row.priority.getD 0
    acceptedTriggers := row.acceptedTriggers.getD []
    topicCondition := row.topicCondition
    executionSteps := row.executionSteps.getD []
    outputConfig := row.outputConfig.getD { platform := "none", format := "summary" }
    executionCount := row.executionCount.getD 0
    lastExecutedAt := row.lastExecutedAt
    createdAt := row.createdAt
    updatedAt := row.updatedAt
    activationMode := row.activationMode.getD ActivationMode.trigger
    scheduleEnabled := row.scheduleEnabled.getD false
    scheduleInterval := row.scheduleInterval
    scheduleLastRun := row.scheduleLastRun
    scheduleNextRun := row.scheduleNextRun }

/-- A concrete rule used as the base of the worked examples below. -/
def baseRule : ExecutionRule :=
  { id := "r1"
    userId := "u1"
    name := "rule one"
    description := none
    isActive := true
    priority := 0
    acceptedTriggers := []
    topicCondition := "topic"
    executionSteps := []
    outputConfig := { platform := "none", format := "summary" }
    executionCount := 0
    lastExecutedAt := none
    createdAt := 0
    updatedAt := 0
    activationMode := ActivationMode.trigger
    scheduleEnabled := false
    scheduleInterval := none
    scheduleLastRun := none
    scheduleNextRun := none }

/-- A due scheduled rule whose stored scheduleNextRun is 10 when the
scheduler reads it. -/
def dueRule : ExecutionRule :=
  { baseRule with
    activationMode := ActivationMode.scheduled
    scheduleEnabled := true
    scheduleInterval := some ScheduleInterval.daily
    scheduleNextRun := some 10 }

/-- An active manual-only rule, priority 5, least recently updated. -/
def tieRuleManual : ExecutionRule :=
  { baseRule with
    id := "a"
    priority := 5
    updatedAt := 100
    activationMode := ActivationMode.manual }

/-- An active trigger rule, priority 5 as well, most recently updated. -/
def tieRuleFresh : ExecutionRule :=
  { baseRule with
    id := "b"
    priority := 5
    updatedAt := 200
    acceptedTriggers := ["gmail_new_email"] }

/-- A concrete log entry used as the base of the stats examples. -/
def baseLog : ExecutionLogEntry :=
  { id := "log_1"
    ruleId := "r1"
    ruleName := "rule one"
    userId := "u1"
    triggerSlug := "manual"
    status := RunStatus.success
    stepsJson := []
    outputText := none
    errorText := none
    durationMs := some 100
    createdAt := 0 }

/-- Two successful runs with durations 1 ms and 2 ms: their mean is the
non-integer 3 / 2. -/
def fracLogs : List ExecutionLogEntry :=
  [{ baseLog with id := "log_1", durationMs := some 1 },
   { baseLog with id := "log_2", durationMs := some 2 }]

/-- Three successful runs with durations 100 ms, 200 ms and 300 ms. -/
def threeLogs : List ExecutionLogEntry :=
  [{ baseLog with id := "log_1", durationMs := some 100 },
   { baseLog with id := "log_2", durationMs := some 200 },
   { baseLog with id := "log_3", durationMs := some 300 }]

/-- A creation payload that enables the schedule without supplying an
interval. -/
def enableOnlyInput : ExecutionRuleInput :=
  { name := "rule one"
    topicCondition := "topic"
    executionSteps := []
    outputConfig := { platform := "none", format := "summary" }
    scheduleEnabled := some true }

/-- A creation payload that enables the schedule with a daily interval. -/
def dailyInput : ExecutionRuleInput :=
  { name := "rule one"
    topicCondition := "topic"
    executionSteps := []
    outputConfig := { platform := "none", format := "summary" }
    scheduleEnabled := some true
    scheduleInterval := some ScheduleInterval.daily }

/-- An update body whose only recognized field is scheduleInterval. -/
def intervalOnlyPatch : RulePatch :=
  { scheduleInterval := some ScheduleInterval.daily }

/-- An update body whose only recognized field is scheduleEnabled = true. -/
def enableOnlyPatch : RulePatch :=
  { scheduleEnabled := some true }

/-- A rule with a stored scheduleNextRun, owned by user u1. -/
def scheduledRule : ExecutionRule :=
  { baseRule with
    activationMode := ActivationMode.all
    scheduleEnabled := true
    scheduleInterval := some ScheduleInterval.hourly
    scheduleNextRun := some 5 }

/-- A store with one rule and one historical log entry that references it. -/
def exStore : Store :=
  { rules := [dueRule]
    logs := [baseLog] }

/-- A database row whose nullable columns are all NULL. -/
def nullRow : RuleRow :=
  { id := "r1"
    userId := "u1"
    name := "rule one"
    description := none
    isActive := none
    priority := none
    acceptedTriggers := none
    topicCondition := "topic"
    executionSteps := none
    outputConfig := none
    executionCount := none
    lastExecutedAt := none
    createdAt := 0
    updatedAt := 0
    activationMode := none
    scheduleEnabled := none
    scheduleInterval := none
    scheduleLastRun := none
    scheduleNextRun := none }

/-- An inactive manual rule and an active trigger-only rule, both owned by
user u1, for the invoke-route examples. -/
def inactiveManualRule : ExecutionRule :=
  { baseRule with
    id := "m1"
    isActive := false
    activationMode := ActivationMode.manual }

/-- An active rule whose activationMode is trigger, so it excludes manual
invocation. -/
def triggerOnlyRule : ExecutionRule :=
  { baseRule with id := "t1" }

/-- The statistics contract satisfied by the stats queries over a row scope:
totalRuns counts the scope, successRate is successCount / totalRuns * 100
when totalRuns is positive and 0 otherwise, avgDurationMs is the mean of the
non-NULL recorded durations rounded to the nearest integer (0 when none
exist), and the results are totally defined with successRate within 0..100
and avgDurationMs nonnegative. -/
def StatsSpec (scope : List ExecutionLogEntry) (s : ExecutionLogStats) : Prop :=
  s.totalRuns = scope.length ∧
  (scope.length = 0 → s.successRate = 0) ∧
  (0 < scope.length →
    s.successRate =
      ((scope.filter (fun e => decide (e.status = RunStatus.success))).length : ℚ)
        / (scope.length : ℚ) * 100) ∧
  (scope.filterMap (fun e => e.durationMs) = [] → s.avgDurationMs = 0) ∧
  (scope.filterMap (fun e => e.durationMs) ≠ [] →
    s.avgDurationMs =
      round ((((scope.filterMap (fun e => e.durationMs)).sum : ℕ) : ℚ)
        / ((scope.filterMap (fun e => e.durationMs)).length : ℚ))) ∧
  0 ≤ s.successRate ∧ s.successRate ≤ 100 ∧ 0 ≤ s.avgDurationMs

/-- statsOf meets the statistics contract on every scope. -/
theorem statsOf_meets_spec (scope : List ExecutionLogEntry) :
    StatsSpec scope (statsOf scope) := by
  have hcount : ((scope.filter (fun e => decide (e.status = RunStatus.success))).length : ℚ)
      ≤ (scope.length : ℚ) := by
    exact_mod_cast List.length_filter_le _ scope
  refine ⟨rfl, ?_, ?_, ?_, ?_, ?_, ?_, ?_⟩
  · intro h
    simp only [statsOf]
    rw [if_neg (by omega)]
  · intro h
    simp only [statsOf]
    rw [if_pos h]
  · intro h
    simp only [statsOf]
    rw [if_neg (by rw [h]; simp)]
  · intro h
    simp only [statsOf]
    rw [if_pos (List.length_pos.mpr h)]
  · simp only [statsOf]
    split
    · positivity
    · exact le_refl 0
  · simp only [statsOf]
    split
    · rename_i hpos
      have hq : (0 : ℚ) < (scope.length : ℚ) := by exact_mod_cast hpos
      have hdiv : ((scope.filter (fun e => decide (e.status = RunStatus.success))).length : ℚ)
          / (scope.length : ℚ) ≤ 1 :=
        div_le_one_of_le₀ hcount (le_of_lt hq)
      have := mul_le_mul_of_nonneg_right hdiv (by norm_num : (0 : ℚ) ≤ 100)
      simpa using this
    · norm_num
  · simp only [statsOf]
    split
    · rename_i hpos
      rw [round_eq]
      have hq : (0 : ℚ) < ((scope.filterMap (fun e => e.durationMs)).length : ℚ) := by
        exact_mod_cast hpos
      have hd : (0 : ℚ) ≤ (((scope.filterMap (fun e => e.durationMs)).sum : ℕ) : ℚ)
          / ((scope.filterMap (fun e => e.durationMs)).length : ℚ) :=
        div_nonneg (Nat.cast_nonneg _) (le_of_lt hq)
      refine Int.le_floor.mpr ?_
      rw [Int.cast_zero]
      linarith
    · exact le_refl 0

/-- C3: for every supported schedule interval and every base time t the
computed next-run time is strictly greater than t; for the daily interval it
equals t plus exactly 24 hours; and a rule created at time T0 with
scheduleInterval daily and scheduleEnabled true has scheduleNextRun equal to
T0 plus 24 hours. -/
theorem c3_nextRun_after_base_daily_exact :
    (∀ (iv : ScheduleInterval) (t : Nat), t < calculateNextRunTime iv t) ∧
    (∀ t : Nat,
      calculateNextRunTime ScheduleInterval.daily t = t + 24 * 60 * 60 * 1000) ∧
    (∀ (id uid : String) (t0 : Nat) (input : ExecutionRuleInput),
      input.scheduleEnabled = some true →
      input.scheduleInterval = some ScheduleInterval.daily →
      (createRule id t0 uid input).scheduleNextRun =
        some (t0 + 24 * 60 * 60 * 1000)) := by
  refine ⟨fun iv t => ?_, fun t => rfl, fun id uid t0 input h1 h2 => ?_⟩
  · cases iv <;> simp [calculateNextRunTime]
  · simp [createRule, h1, h2, calculateNextRunTime]

/-- Witness for C3: creating a rule at time 0 with the daily schedule enabled
yields scheduleNextRun 86400000. -/
theorem c3_nextRun_after_base_daily_exact_witness :
    (createRule "r1" 0 "u1" dailyInput).scheduleNextRun =
      some (0 + 24 * 60 * 60 * 1000) :=
  c3_nextRun_after_base_daily_exact.2.2 "r1" "u1" 0 dailyInput rfl rfl

/-- C10: mapRuleRow, through which every storage read passes its rows,
normalizes NULL columns: priority and executionCount default to 0,
acceptedTriggers and executionSteps to the empty list, activationMode to
trigger, outputConfig to platform none with format summary, and isActive and
scheduleEnabled are coerced to booleans with NULL becoming false. -/
theorem c10_mapRuleRow_normalizes (row : RuleRow) :
    (row.priority = none → (mapRuleRow row).priority = 0) ∧
    (row.executionCount = none → (mapRuleRow row).executionCount = 0) ∧
    (row.acceptedTriggers = none → (mapRuleRow row).acceptedTriggers = []) ∧
    (row.executionSteps = none → (mapRuleRow row).executionSteps = []) ∧
    (row.activationMode = none →
      (mapRuleRow row).activationMode = ActivationMode.trigger) ∧
    (row.outputConfig = none →
      (mapRuleRow row).outputConfig = { platform := "none", format := "summary" }) ∧
    (mapRuleRow row).isActive = row.isActive.getD false ∧
    (mapRuleRow row).scheduleEnabled = row.scheduleEnabled.getD false := by
  refine ⟨fun h => ?_, fun h => ?_, fun h => ?_, fun h => ?_, fun h => ?_,
    fun h => ?_, rfl, rfl⟩ <;> simp [mapRuleRow, h]

/-- Witness for C10: the all-NULL row maps to the documented defaults. -/
theorem c10_mapRuleRow_normalizes_witness :
    (mapRuleRow nullRow).priority = 0 ∧
    (mapRuleRow nullRow).executionCount = 0 ∧
    (mapRuleRow nullRow).acceptedTriggers = [] ∧
    (mapRuleRow nullRow).executionSteps = [] ∧
    (mapRuleRow nullRow).activationMode = ActivationMode.trigger ∧
    (mapRuleRow nullRow).outputConfig = { platform := "none", format := "summary" } ∧
    (mapRuleRow nullRow).isActive = false ∧
    (mapRuleRow nullRow).scheduleEnabled = false := by
  have h := c10_mapRuleRow_normalizes nullRow
  exact ⟨h.1 rfl, h.2.1 rfl, h.2.2.1 rfl, h.2.2.2.1 rfl, h.2.2.2.2.1 rfl,
    h.2.2.2.2.2.1 rfl, h.2.2.2.2.2.2.1.trans rfl, h.2.2.2.2.2.2.2.trans rfl⟩

/-- C6: when the manual-invocation handler finds the requested rule, an
inactive rule is rejected with the documented 400 error and a rule whose
activationMode is neither manual nor all is rejected with the documented
error Rule does not support manual invocation; in both cases the handler
makes no processManual call, so no step is executed and no execution log
entry is written (log writes happen only inside processManual). -/
theorem c6_manual_invocation_rejected (table : List ExecutionRule)
    (uid rid : String) (body : InvokeRequest) (rule : ExecutionRule)
    (hbody : body.ruleId = some rid) (hrid : rid ≠ "")
    (hfound : getByIdAndUser table rid uid = some rule) :
    (rule.isActive = false →
      invokePost table (some uid) body =
        { response := InvokeResponse.badRequest "Rule is not active"
          processManualCalls := [] }) ∧
    (rule.isActive = true →
      rule.activationMode ≠ ActivationMode.manual →
      rule.activationMode ≠ ActivationMode.all →
      invokePost table (some uid) body =
        { response := InvokeResponse.badRequest "Rule does not support manual invocation"
          processManualCalls := [] }) := by
  constructor
  · intro hin
    simp [invokePost, hbody, hrid, hfound, hin]
  · intro hact hm ha
    simp [invokePost, hbody, hrid, hfound, hact, hm, ha]

/-- Witness for C6: invoking the active trigger-only rule t1 is rejected with
the documented error and no processManual call. -/
theorem c6_manual_invocation_rejected_witness :
    invokePost [inactiveManualRule, triggerOnlyRule] (some "u1")
      { ruleId := some "t1" } =
      { response := InvokeResponse.badRequest "Rule does not support manual invocation"
        processManualCalls := [] } := by
  have h := c6_manual_invocation_rejected [inactiveManualRule, triggerOnlyRule]
    "u1" "t1" { ruleId := some "t1" } triggerOnlyRule rfl (by decide) (by decide)
  exact h.2 rfl (by decide) (by decide)

/-- C9: manual invocation looks the rule up scoped to the requesting user;
when every rule carrying the requested id belongs to a different user, the
handler answers 404 Rule not found and makes no processManual call, so no
step runs and no log entry is written. -/
theorem c9_cross_user_invocation_not_found (table : List ExecutionRule)
    (uid rid : String) (body : InvokeRequest)
    (hbody : body.ruleId = some rid) (hrid : rid ≠ "")
    (_hexists : ∃ r ∈ table, r.id = rid)
    (hscope : ∀ r ∈ table, r.id = rid → r.userId ≠ uid) :
    invokePost table (some uid) body =
      { response := InvokeResponse.notFound "Rule not found"
        processManualCalls := [] } ∧
    statusCode (invokePost table (some uid) body).response = 404 := by
  have hnone : getByIdAndUser table rid uid = none := by
    rw [getByIdAndUser, List.find?_eq_none]
    intro r hr
    simp only [decide_eq_true_eq, not_and]
    intro h1 h2
    exact hscope r hr h1 h2
  constructor
  · simp [invokePost, hbody, hrid, hnone]
  · simp [invokePost, hbody, hrid, hnone, statusCode]

/-- Witness for C9: user u2 invoking rule r1, which exists but is owned by
u1, receives 404 Rule not found. -/
theorem c9_cross_user_invocation_not_found_witness :
    invokePost [dueRule] (some "u2") { ruleId := some "r1" } =
      { response := InvokeResponse.notFound "Rule not found"
        processManualCalls := [] } :=
  (c9_cross_user_invocation_not_found [dueRule] "u2" "r1"
    { ruleId := some "r1" } rfl (by decide)
    ⟨dueRule, by decide, rfl⟩ (by decide)).1

/-- C4 counterexample: two runs whose recorded durations are 1 ms and 2 ms
have average 3 / 2, but the stats query returns avgDurationMs 2 (Math.round
of the average), so the returned value does not equal the average of the
recorded durations. -/
theorem c4_counterexample :
    ((getStats fracLogs "u1").avgDurationMs : ℚ) ≠ ((1 : ℚ) + 2) / 2 ∧
    (getStats fracLogs "u1").avgDurationMs = 2 := by
  have hsum : ((fracLogs.filter (fun e => decide (e.userId = "u1"))).filterMap
      (fun e => e.durationMs)).sum = 3 := by decide
  have hlen : ((fracLogs.filter (fun e => decide (e.userId = "u1"))).filterMap
      (fun e => e.durationMs)).length = 2 := by decide
  have h2 : (getStats fracLogs "u1").avgDurationMs = 2 := by
    have h := (statsOf_meets_spec
      (fracLogs.filter (fun e => decide (e.userId = "u1")))).2.2.2.2.1 (by decide)
    rw [getStats, h, hsum, hlen, round_eq]
    norm_num
  refine ⟨?_, h2⟩
  intro h
  rw [h2] at h
  norm_num at h

/-- C4 (amended): for every scope (user id via getStats, rule id via
getStatsByRuleId), successRate is successCount / totalRuns * 100 when
totalRuns is positive and 0 when totalRuns is 0, and avgDurationMs is the
average of the recorded (non-NULL) durations rounded to the nearest integer,
0 when there is no history; both stats queries are total functions whose
successRate lies in 0..100 and whose avgDurationMs is nonnegative, so no NaN
and no division error can arise. -/
theorem c4_stats_formula (logs : List ExecutionLogEntry) (uid rid : String) :
    StatsSpec (logs.filter (fun e => decide (e.userId = uid)))
      (getStats logs uid) ∧
    StatsSpec (logs.filter (fun e => decide (e.ruleId = rid)))
      (getStatsByRuleId logs rid) :=
  ⟨statsOf_meets_spec _, statsOf_meets_spec _⟩

/-- Witness for C4: three successful runs of 100 ms, 200 ms and 300 ms yield
totalRuns 3, successRate 100 and avgDurationMs 200. -/
theorem c4_stats_formula_witness :
    (getStats threeLogs "u1").totalRuns = 3 ∧
    (getStats threeLogs "u1").successRate = 100 ∧
    (getStats threeLogs "u1").avgDurationMs = 200 := by
  have h := (c4_stats_formula threeLogs "u1" "r1").1
  refine ⟨h.1.trans (by decide), ?_, ?_⟩
  · rw [h.2.2.1 (by decide),
      show ((threeLogs.filter (fun e => decide (e.userId = "u1"))).filter
        (fun e => decide (e.status = RunStatus.success))).length = 3 from by decide,
      show (threeLogs.filter (fun e => decide (e.userId = "u1"))).length = 3
        from by decide]
    norm_num
  · rw [h.2.2.2.2.1 (by decide),
      show ((threeLogs.filter (fun e => decide (e.userId = "u1"))).filterMap
        (fun e => e.durationMs)).sum = 600 from by decide,
      show ((threeLogs.filter (fun e => decide (e.userId = "u1"))).filterMap
        (fun e => e.durationMs)).length = 3 from by decide,
      round_eq]
    norm_num

/-- C1 counterexample: a rule is found due with scheduleNextRun 10; a first
tick advances it, after which the stored scheduleNextRun no longer equals the
value 10 that was read. A second tick that had read the same value then runs
updateScheduleRun, and - contrary to the claimed conditional semantics, under
which it would be skipped - it still modifies the rule (its executionCount
reaches 2 and its schedule advances again), so two concurrent ticks both
claim the same due window. -/
theorem c1_counterexample :
    (∀ r ∈ updateScheduleRun [dueRule] "r1" ScheduleInterval.daily 1000,
      r.scheduleNextRun ≠ some 10) ∧
    updateScheduleRun (updateScheduleRun [dueRule] "r1" ScheduleInterval.daily 1000)
        "r1" ScheduleInterval.daily 2000 ≠
      updateScheduleRun [dueRule] "r1" ScheduleInterval.daily 1000 ∧
    (∀ r ∈ updateScheduleRun
        (updateScheduleRun [dueRule] "r1" ScheduleInterval.daily 1000)
        "r1" ScheduleInterval.daily 2000,
      r.executionCount = 2) := by decide

/-- C1 (amended): updateScheduleRun advances a due rule unconditionally: the
single UPDATE filters on the rule id alone, setting scheduleNextRun to
now + interval, scheduleLastRun to now, incrementing executionCount and
setting lastExecutedAt, regardless of whether scheduleNextRun still equals
the value read when the rule was found due; there is no conditional-claim or
skip path, so concurrent ticks against one due rule are not reduced to a
single successful claim. Rules with a different id are untouched. -/
theorem c1_updateScheduleRun_unconditional (table : List ExecutionRule)
    (id : String) (iv : ScheduleInterval) (now : Nat) (r : ExecutionRule)
    (hmem : r ∈ table) :
    (r.id = id →
      advanceScheduleRun r iv now ∈ updateScheduleRun table id iv now ∧
      (advanceScheduleRun r iv now).scheduleNextRun =
        some (calculateNextRunTime iv now) ∧
      (advanceScheduleRun r iv now).scheduleLastRun = some now ∧
      (advanceScheduleRun r iv now).executionCount = r.executionCount + 1 ∧
      (advanceScheduleRun r iv now).lastExecutedAt = some now) ∧
    (r.id ≠ id → r ∈ updateScheduleRun table id iv now) := by
  constructor
  · intro h
    refine ⟨?_, rfl, rfl, rfl, rfl⟩
    rw [updateScheduleRun]
    exact List.mem_map.mpr ⟨r, hmem, by simp [h]⟩
  · intro h
    rw [updateScheduleRun]
    exact List.mem_map.mpr ⟨r, hmem, by simp [h]⟩

/-- Witness for C1 (amended): advancing the concrete due rule at time 1000
puts its advanced version in the table with executionCount incremented. -/
theorem c1_updateScheduleRun_unconditional_witness :
    advanceScheduleRun dueRule ScheduleInterval.daily 1000 ∈
      updateScheduleRun [dueRule] "r1" ScheduleInterval.daily 1000 ∧
    (advanceScheduleRun dueRule ScheduleInterval.daily 1000).executionCount =
      dueRule.executionCount + 1 := by
  have h := (c1_updateScheduleRun_unconditional [dueRule] "r1"
    ScheduleInterval.daily 1000 dueRule (by decide)).1 rfl
  exact ⟨h.1, h.2.2.2.1⟩

/-- C2 counterexample: two active rules of the same user tie at priority 5;
the one updated least recently sits first in the table and getActiveByUserId
(ORDER BY priority DESC with no tie-break column) returns it first, so ties
are not broken by most-recently-updated first; moreover its activationMode is
manual, which excludes the trigger path, yet it is included in the result. -/
theorem c2_counterexample :
    getActiveByUserId [tieRuleManual, tieRuleFresh] "u1" =
      [tieRuleManual, tieRuleFresh] ∧
    tieRuleManual.priority = tieRuleFresh.priority ∧
    tieRuleManual.updatedAt < tieRuleFresh.updatedAt ∧
    tieRuleManual.activationMode = ActivationMode.manual := by decide

/-- C2 (amended): getActiveByUserId returns exactly the active rules of the
user, in priority-descending order, with equal priorities left in the order
the table delivers them (the SQL names no tie-break column) and with no
filter on activationMode or acceptedTriggers at this layer; getByUserId is
the query ordered by priority descending then most-recently-updated first,
but it also returns inactive rules. -/
theorem c2_candidate_ordering (table : List ExecutionRule) (uid : String) :
    List.Sorted prioDesc (getActiveByUserId table uid) ∧
    (∀ r ∈ getActiveByUserId table uid, r.userId = uid ∧ r.isActive = true) ∧
    (∀ r ∈ table, r.userId = uid → r.isActive = true →
      r ∈ getActiveByUserId table uid) ∧
    List.Sorted prioUpdatedDesc (getByUserId table uid) ∧
    (∀ r ∈ getByUserId table uid, r.userId = uid) := by
  refine ⟨List.sorted_insertionSort _ _, ?_, ?_, List.sorted_insertionSort _ _, ?_⟩
  · intro r hr
    rw [getActiveByUserId, List.mem_insertionSort] at hr
    simpa using (List.mem_filter.mp hr).2
  · intro r hr h1 h2
    rw [getActiveByUserId, List.mem_insertionSort]
    exact List.mem_filter.mpr ⟨hr, by simp [h1, h2]⟩
  · intro r hr
    rw [getByUserId, List.mem_insertionSort] at hr
    simpa using (List.mem_filter.mp hr).2

/-- Witness for C2 (amended): on the concrete two-rule table the result is
priority-sorted and contains the fresh active rule. -/
theorem c2_candidate_ordering_witness :
    List.Sorted prioDesc (getActiveByUserId [tieRuleManual, tieRuleFresh] "u1") ∧
    tieRuleFresh ∈ getActiveByUserId [tieRuleManual, tieRuleFresh] "u1" := by
  have h := c2_candidate_ordering [tieRuleManual, tieRuleFresh] "u1"
  exact ⟨h.1, h.2.2.1 tieRuleFresh (by decide) rfl rfl⟩

/-- C5 counterexample: creating a rule with scheduleEnabled true but no
scheduleInterval stores scheduleEnabled = true with scheduleNextRun NULL, and
updating an existing rule to scheduleEnabled = true without supplying an
interval equally leaves scheduleNextRun NULL, so a reachable state has the
schedule enabled and no next run set. -/
theorem c5_counterexample :
    ((createRule "r1" 0 "u1" enableOnlyInput).scheduleEnabled = true ∧
     (createRule "r1" 0 "u1" enableOnlyInput).scheduleNextRun = none) ∧
    ((updateRule baseRule enableOnlyPatch 1000).scheduleEnabled = true ∧
     (updateRule baseRule enableOnlyPatch 1000).scheduleNextRun = none) := by
  decide

/-- C5 (amended): scheduleNextRun is guaranteed non-null only when an
interval accompanies the enablement: a create whose input has
scheduleEnabled = true and a scheduleInterval yields a rule with
scheduleEnabled set and a non-null scheduleNextRun, and an update that
supplies a scheduleInterval without simultaneously disabling the schedule
leaves scheduleNextRun non-null; enabling the schedule without an interval
can leave scheduleNextRun null. -/
theorem c5_nextRun_set_when_interval_supplied (id uid : String) (now : Nat)
    (input : ExecutionRuleInput) (r : ExecutionRule) (p : RulePatch)
    (iv iv2 : ScheduleInterval) :
    (input.scheduleEnabled = some true → input.scheduleInterval = some iv →
      (createRule id now uid input).scheduleEnabled = true ∧
      (createRule id now uid input).scheduleNextRun ≠ none) ∧
    (p.scheduleInterval = some iv2 → p.scheduleEnabled ≠ some false →
      (updateRule r p now).scheduleNextRun ≠ none) := by
  constructor
  · intro h1 h2
    constructor
    · simp [createRule, h1]
    · simp [createRule, h1, h2]
  · intro h1 h2
    simp [updateRule, h1, h2]

/-- Witness for C5 (amended): the daily-enabled creation payload and the
interval-only update leave scheduleNextRun non-null. -/
theorem c5_nextRun_set_when_interval_supplied_witness :
    (createRule "r1" 0 "u1" dailyInput).scheduleEnabled = true ∧
    (createRule "r1" 0 "u1" dailyInput).scheduleNextRun ≠ none ∧
    (updateRule baseRule intervalOnlyPatch 0).scheduleNextRun ≠ none := by
  have h := c5_nextRun_set_when_interval_supplied "r1" "u1" 0 dailyInput
    baseRule intervalOnlyPatch ScheduleInterval.daily ScheduleInterval.daily
  exact ⟨(h.1 rfl rfl).1, (h.1 rfl rfl).2, h.2 rfl (by decide)⟩

/-- C7 counterexample: an update whose body specifies only scheduleInterval
changes the stored scheduleNextRun, a field the input does not specify (it is
not even an input field), so not every unspecified field is left unchanged. -/
theorem c7_counterexample :
    intervalOnlyPatch.name = none ∧
    intervalOnlyPatch.description = none ∧
    intervalOnlyPatch.isActive = none ∧
    intervalOnlyPatch.priority = none ∧
    intervalOnlyPatch.acceptedTriggers = none ∧
    intervalOnlyPatch.topicCondition = none ∧
    intervalOnlyPatch.executionSteps = none ∧
    intervalOnlyPatch.outputConfig = none ∧
    intervalOnlyPatch.activationMode = none ∧
    intervalOnlyPatch.scheduleEnabled = none ∧
    (updateRule scheduledRule intervalOnlyPatch 1000).scheduleNextRun ≠
      scheduledRule.scheduleNextRun := by decide

/-- C7 (amended): a partial update leaves every field not specified in the
input unchanged - id, owner, executionCount, lastExecutedAt, createdAt,
updatedAt and scheduleLastRun are never touched, and each input field left
out keeps its prior stored value - with the single exception that
scheduleNextRun is recalculated whenever the input specifies a
scheduleInterval (and does not simultaneously set scheduleEnabled to false);
an update with no recognized fields leaves the rule entirely unchanged. -/
theorem c7_update_preserves_unspecified (r : ExecutionRule) (p : RulePatch)
    (now : Nat) :
    (updateRule r p now).id = r.id ∧
    (updateRule r p now).userId = r.userId ∧
    (updateRule r p now).executionCount = r.executionCount ∧
    (updateRule r p now).lastExecutedAt = r.lastExecutedAt ∧
    (updateRule r p now).createdAt = r.createdAt ∧
    (updateRule r p now).updatedAt = r.updatedAt ∧
    (updateRule r p now).scheduleLastRun = r.scheduleLastRun ∧
    (p.name = none → (updateRule r p now).name = r.name) ∧
    (p.description = none → (updateRule r p now).description = r.description) ∧
    (p.isActive = none → (updateRule r p now).isActive = r.isActive) ∧
    (p.priority = none → (updateRule r p now).priority = r.priority) ∧
    (p.acceptedTriggers = none →
      (updateRule r p now).acceptedTriggers = r.acceptedTriggers) ∧
    (p.topicCondition = none →
      (updateRule r p now).topicCondition = r.topicCondition) ∧
    (p.executionSteps = none →
      (updateRule r p now).executionSteps = r.executionSteps) ∧
    (p.outputConfig = none → (updateRule r p now).outputConfig = r.outputConfig) ∧
    (p.activationMode = none →
      (updateRule r p now).activationMode = r.activationMode) ∧
    (p.scheduleEnabled = none →
      (updateRule r p now).scheduleEnabled = r.scheduleEnabled) ∧
    (p.scheduleInterval = none →
      (updateRule r p now).scheduleInterval = r.scheduleInterval ∧
      (updateRule r p now).scheduleNextRun = r.scheduleNextRun) ∧
    updateRule r emptyPatch now = r := by
  refine ⟨rfl, rfl, rfl, rfl, rfl, rfl, rfl, fun h => ?_, fun h => ?_,
    fun h => ?_, fun h => ?_, fun h => ?_, fun h => ?_, fun h => ?_,
    fun h => ?_, fun h => ?_, fun h => ?_, fun h => ?_, rfl⟩ <;>
    simp [updateRule, h]

/-- Witness for C7 (amended): the empty update leaves the concrete base rule
unchanged, and a priority-only update keeps its name. -/
theorem c7_update_preserves_unspecified_witness :
    updateRule baseRule emptyPatch 0 = baseRule ∧
    (updateRule baseRule { priority := some 7 } 0).name = baseRule.name := by
  have h := c7_update_preserves_unspecified baseRule { priority := some 7 } 0
  obtain ⟨-, -, -, -, -, -, -, hname, -⟩ := h
  exact ⟨(c7_update_preserves_unspecified baseRule emptyPatch 0).2.2.2.2.2.2.2.2.2.2.2.2.2.2.2.2.2.2,
    hname rfl⟩

/-- C8: deleting a rule issues one DELETE on the rules table: the execution
log table is untouched, so every previously written log entry - including its
denormalized ruleId and ruleName - survives unmodified; and the deleted id no
longer appears in the due-schedule query, the active-rules query, or the
by-id-and-user lookup, removing it from all future scheduler and dispatcher
consideration. -/
theorem c8_delete_keeps_history (s : Store) (id : String) :
    (deleteRuleFromStore s id).logs = s.logs ∧
    (∀ e ∈ s.logs, e ∈ (deleteRuleFromStore s id).logs) ∧
    (∀ now r, r ∈ getScheduledRulesDue (deleteRuleFromStore s id).rules now →
      r.id ≠ id) ∧
    (∀ uid r, r ∈ getActiveByUserId (deleteRuleFromStore s id).rules uid →
      r.id ≠ id) ∧
    (∀ uid, getByIdAndUser (deleteRuleFromStore s id).rules id uid = none) := by
  refine ⟨rfl, fun e he => he, ?_, ?_, ?_⟩
  · intro now r hr
    rw [getScheduledRulesDue, List.mem_insertionSort] at hr
    have h1 := (List.mem_filter.mp hr).1
    have h2 := (List.mem_filter.mp h1).2
    simpa using h2
  · intro uid r hr
    rw [getActiveByUserId, List.mem_insertionSort] at hr
    have h1 := (List.mem_filter.mp hr).1
    have h2 := (List.mem_filter.mp h1).2
    simpa using h2
  · intro uid
    rw [getByIdAndUser, List.find?_eq_none]
    intro r hr
    have h2 := (List.mem_filter.mp hr).2
    simp only [decide_eq_true_eq] at h2 ⊢
    intro hcontra
    exact h2 hcontra.1

/-- Witness for C8: deleting rule r1 from the concrete store keeps its log
entry and empties every rule query for r1. -/
theorem c8_delete_keeps_history_witness :
    (deleteRuleFromStore exStore "r1").logs = exStore.logs ∧
    baseLog ∈ (deleteRuleFromStore exStore "r1").logs ∧
    getByIdAndUser (deleteRuleFromStore exStore "r1").rules "r1" "u1" = none := by
  have h := c8_delete_keeps_history exStore "r1"
  exact ⟨h.1, h.2.1 baseLog (by decide), h.2.2.2.2 "u1"⟩

end Haist
